import Mathlib

/-!
Verification development for `movie_toolkit.py`, a script that extracts still
frames from video files at fixed time intervals.

The embedding works over exact rational arithmetic (`ℚ` in place of Python
floats, preserving the floor semantics the code relies on).  External
collaborators (the OpenCV decoder and the image encoder) are modelled as
oracles in a `VideoEnv`: per-target-frame read outcomes (success, failure, or
raised exception), whether the image write raises, and the Boolean result the
encoder returns (which the code never inspects).  The sampling loop is a
fuel-indexed recursion; with positive interval the fuel bound
`⌊duration/interval⌋ + 2` is reached by every run, and theorems carry the fuel
sufficiency hypothesis explicitly.
-/

namespace MovieToolkit

/-- Python `%` on numbers with positive divisor: `a - b * floor(a / b)`. -/
def pymod (a b : ℚ) : ℚ := a - b * ⌊a / b⌋

/-- Python `int()` applied to a number: truncation toward zero. -/
def pytrunc (q : ℚ) : ℤ := if q < 0 then -⌊-q⌋ else ⌊q⌋

/-- Little-endian decimal digits, by fuel-indexed structural recursion (so that
the kernel can evaluate it); `repr10Aux_eq_digits` identifies it with
`Nat.digits 10` when the fuel is at least the number. -/
def repr10Aux : ℕ → ℕ → List ℕ
  | 0, _ => []
  | _ + 1, 0 => []
  | fuel + 1, n + 1 => ((n + 1) % 10) :: repr10Aux fuel ((n + 1) / 10)

/-- Decimal digits of a natural number, most significant first (empty for 0). -/
def repr10 (n : ℕ) : List ℕ := (repr10Aux n n).reverse

/-- Left-pad a (big-endian) digit list with zeros to width `w`. -/
def padDigits (w : ℕ) (ds : List ℕ) : List ℕ := List.replicate (w - ds.length) 0 ++ ds

/-- The characters Python produces for a zero-padded decimal field of width
`w` of a natural number. -/
def fieldChars (w : ℕ) (n : ℕ) : List Char := (padDigits w (repr10 n)).map Nat.digitChar

/-- The characters Python produces for a zero-padded decimal field of an
integer (zero padding goes after the sign). -/
def intFieldChars (w : ℕ) (i : ℤ) : List Char :=
  if i < 0 then '-' :: fieldChars (w - 1) i.natAbs else fieldChars w i.toNat

/-- The character string `HHhMMmSSsMMMms` for given (already truncated)
hour, minute, second and millisecond values, each zero-padded decimal. -/
def timeChars (hv mv sv msv : ℕ) : List Char :=
  fieldChars 2 hv ++ 'h' :: (fieldChars 2 mv ++ 'm' :: (fieldChars 2 sv
    ++ 's' :: (fieldChars 3 msv ++ ['m', 's'])))

/-- Value of a big-endian decimal digit list. -/
def digitsVal (ds : List ℕ) : ℕ := Nat.ofDigits 10 ds.reverse

/-- The function `format_time` from the source: `h = int(seconds // 3600)`,
`m = int((seconds % 3600) // 60)`, `s = int(seconds % 60)`,
`ms = int((seconds - int(seconds)) * 1000)`, rendered as the h, m, s and ms
fields zero-padded to widths 2, 2, 2, 3 and separated by the letters
h, m, s, ms. -/
def format_time (seconds : ℚ) : String :=
  String.mk (intFieldChars 2 ⌊seconds / 3600⌋ ++ ['h']
    ++ intFieldChars 2 ⌊pymod seconds 3600 / 60⌋ ++ ['m']
    ++ intFieldChars 2 (pytrunc (pymod seconds 60)) ++ ['s']
    ++ intFieldChars 3 (pytrunc ((seconds - (pytrunc seconds : ℚ)) * 1000)) ++ ['m', 's'])

/-- Output filename for one frame: the basename of the video path, an
underscore, the formatted timestamp, and the fixed extension. -/
def mkFilename (base : String) (t : ℚ) : String := base ++ "_" ++ format_time t ++ ".jpg"

/-- Outcome of the decoder's seek-and-read at one target frame: `ret = True`
(`ok`), `ret = False` (`fail`), or an exception raised by the decoder
(`raiseExn`). -/
inductive ReadOutcome
  | ok
  | fail
  | raiseExn
deriving DecidableEq

/-- One video as the script observes it: the `is_file` check, whether
`cv2.VideoCapture` opens it, the metadata `CAP_PROP_FPS` and (already
`int()`-converted) `CAP_PROP_FRAME_COUNT`, per-target-frame oracles for the
seek/read and for `cv2.imwrite` (whether it raises, and the Boolean it
returns — the code ignores the latter), and `os.path.basename(video_path)`. -/
structure VideoEnv where
  isFile : Bool
  opens : Bool
  fps : ℚ
  totalFrames : ℤ
  read : ℤ → ReadOutcome
  writeRaises : ℤ → Bool
  writeOk : ℤ → Bool
  basename : String

/-- Observable outcome of the sampling `while` loop: the value of
`saved_count`, the number of read-failure warnings logged, the list of files
written (in order), and whether an exception escaped the loop. -/
structure LoopOut where
  saved : ℕ
  fails : ℕ
  files : List String
  exn : Bool
deriving DecidableEq

/-- The sampling loop (lines 95-122 of the source), fuel-indexed:
`while current_time_sec <= duration_sec`, compute
`target_frame_num = math.floor(current_time_sec * fps)`, break when
`target_frame_num >= total_frames`, seek and read (a failed read logs a
warning and advances time), otherwise write the frame, count it, and advance
time.  `cv2.imwrite`'s return value is bound and discarded, as in the code. -/
def sampleLoop (e : VideoEnv) (interval dur : ℚ) : ℕ → ℚ → LoopOut
  | 0, _ => ⟨0, 0, [], false⟩
  | fuel + 1, t =>
    if t ≤ dur then
      if e.totalFrames ≤ ⌊t * e.fps⌋ then ⟨0, 0, [], false⟩
      else
        match e.read ⌊t * e.fps⌋ with
        | .raiseExn => ⟨0, 0, [], true⟩
        | .fail =>
          let r := sampleLoop e interval dur fuel (t + interval)
          ⟨r.saved, r.fails + 1, r.files, r.exn⟩
        | .ok =>
          if e.writeRaises ⌊t * e.fps⌋ then ⟨0, 0, [], true⟩
          else
            let _ret := e.writeOk ⌊t * e.fps⌋
            let r := sampleLoop e interval dur fuel (t + interval)
            ⟨r.saved + 1, r.fails, mkFilename e.basename t :: r.files, r.exn⟩
    else ⟨0, 0, [], false⟩

/-- Observable outcome of one `extract_frames_by_interval` call: the final
`saved_count`, read-failure warnings logged, how many times `cap.release()`
ran, whether the output directory was created, the files written, and whether
an exception propagated out of the call. -/
structure Result where
  saved : ℕ
  warnings : ℕ
  releases : ℕ
  dirCreated : Bool
  files : List String
  exn : Bool
deriving DecidableEq

/-- The function `extract_frames_by_interval` (lines 48-128): return early when the path
is not a regular file or the capture does not open (no release in either
case); compute `duration_sec = total_frames / fps if fps > 0 else 0`; when
`fps == 0` release and return; otherwise create the output directory, run the
sampling loop, and release at the end.  There is no `try/finally`, so an
exception escaping the loop skips the final `cap.release()`. -/
def extract_frames_by_interval (e : VideoEnv) (interval : ℚ) (fuel : ℕ) : Result :=
  if !e.isFile then ⟨0, 0, 0, false, [], false⟩
  else if !e.opens then ⟨0, 0, 0, false, [], false⟩
  else
    let dur : ℚ := if 0 < e.fps then (e.totalFrames : ℚ) / e.fps else 0
    if e.fps = 0 then ⟨0, 0, 1, false, [], false⟩
    else
      let lo := sampleLoop e interval dur fuel 0
      if lo.exn then ⟨lo.saved, lo.fails, 0, true, lo.files, true⟩
      else ⟨lo.saved, lo.fails, 1, true, lo.files, false⟩

/-- Observable outcome of the batch driver: how many times the Frame Sampler
was invoked, how many per-entry errors were caught and logged, and whether an
exception propagated out of the batch call. -/
structure BatchOut where
  invoked : ℕ
  errorsLogged : ℕ
  exn : Bool
deriving DecidableEq

/-- The `for` loop of `extract_frames_by_interval_in_folder`: each entry is
processed in a `try/except Exception/finally`, so a raising entry is caught
and logged and the loop moves on. -/
def batchLoop (interval : ℚ) (fuel : ℕ) : List VideoEnv → BatchOut
  | [] => ⟨0, 0, false⟩
  | v :: vs =>
    let r := extract_frames_by_interval v interval fuel
    let rest := batchLoop interval fuel vs
    ⟨rest.invoked + 1, rest.errorsLogged + (if r.exn then 1 else 0), false⟩

/-- The function `extract_frames_by_interval_in_folder` (lines 31-46): bail out when the
input folder does not exist, otherwise run the per-entry loop over the glob
of direct entries. -/
def extract_frames_by_interval_in_folder (folderExists : Bool) (videos : List VideoEnv)
    (interval : ℚ) (fuel : ℕ) : BatchOut :=
  if !folderExists then ⟨0, 0, false⟩ else batchLoop interval fuel videos

/-- Names bound in the module's global namespace by the time the
`if __name__ == '__main__':` block runs (imports, logging setup, and the two
function definitions).  The script never imports or otherwise binds a name
`movie_toolkit`. -/
def moduleGlobals : List String :=
  ["cv2", "os", "glob", "inspect", "Enum", "logging", "natsort", "argparse", "Path", "math",
   "sys", "logger", "stream_handler", "formatter", "format_time",
   "extract_frames_by_interval_in_folder", "extract_frames_by_interval", "__name__"]

/-- The head name the `__main__` block evaluates:
`movie_toolkit.extract_frames_by_interval_in_folder(...)`. -/
def mainCallHeadName : String := "movie_toolkit"

/-- Python name resolution for the `__main__` block: a global-scope name
lookup succeeds only when the module namespace binds the name (none of the
builtins is called `movie_toolkit`, so globals are decisive here). -/
def resolvesInModule (n : String) : Bool := moduleGlobals.contains n

/-- Target frame of iteration `k` of the sampling loop,
`math.floor(current_time_sec * fps)` at `current_time_sec = k * interval`. -/
def targetOf (e : VideoEnv) (interval : ℚ) (k : ℕ) : ℤ := ⌊((k : ℚ) * interval) * e.fps⌋

/-- Whether iteration `k` survives the `target_frame_num >= total_frames` break. -/
def inBound (e : VideoEnv) (interval : ℚ) (k : ℕ) : Bool :=
  decide (targetOf e interval k < e.totalFrames)

/-- Whether the read of iteration `k`'s target frame succeeds. -/
def okAt (e : VideoEnv) (interval : ℚ) (k : ℕ) : Bool :=
  decide (e.read (targetOf e interval k) = ReadOutcome.ok)

/-- The iterations (among the first `n` candidates) that actually reach the
seek/read: the prefix before the first `target_frame_num >= total_frames`. -/
def executedIters (e : VideoEnv) (interval : ℚ) (n : ℕ) : List ℕ :=
  (List.range n).takeWhile (inBound e interval)

/-- The value `⌊duration / interval⌋` as a natural number: with positive interval the
loop's candidate time points are `0, interval, …, numCandidates-1 · interval`. -/
def floorDI (e : VideoEnv) (interval : ℚ) : ℕ :=
  (⌊((e.totalFrames : ℚ) / e.fps) / interval⌋).toNat

/-! Concrete environments used as witnesses and counterexamples. -/

/-- A 3-frame video at 1 fps in which every read and write succeeds. -/
def envAllOk : VideoEnv :=
  { isFile := true, opens := true, fps := 1, totalFrames := 3,
    read := fun _ => ReadOutcome.ok, writeRaises := fun _ => false,
    writeOk := fun _ => true, basename := "video.mp4" }

/-- A 10-frame video at 1 fps whose image writes raise an exception. -/
def envRaise : VideoEnv :=
  { isFile := true, opens := true, fps := 1, totalFrames := 10,
    read := fun _ => ReadOutcome.ok, writeRaises := fun _ => true,
    writeOk := fun _ => true, basename := "video.mp4" }

/-- A 2-frame video at 2000 fps: sampling it every 0.5 ms produces two files
whose millisecond timestamps coincide. -/
def envDup : VideoEnv :=
  { isFile := true, opens := true, fps := 2000, totalFrames := 2,
    read := fun _ => ReadOutcome.ok, writeRaises := fun _ => false,
    writeOk := fun _ => true, basename := "video.mp4" }

/-- A 3-frame video at 1 fps whose read at frame 1 fails (`ret` falsy). -/
def envOneFail : VideoEnv :=
  { isFile := true, opens := true, fps := 1, totalFrames := 3,
    read := fun f => if f = 1 then ReadOutcome.fail else ReadOutcome.ok,
    writeRaises := fun _ => false, writeOk := fun _ => true, basename := "video.mp4" }

/-- A path that is not a regular file. -/
def envNoFile : VideoEnv :=
  { isFile := false, opens := false, fps := 1, totalFrames := 3,
    read := fun _ => ReadOutcome.ok, writeRaises := fun _ => false,
    writeOk := fun _ => true, basename := "video.mp4" }

/-- An openable file whose metadata reads back a zero frame rate. -/
def envZeroFps : VideoEnv :=
  { isFile := true, opens := true, fps := 0, totalFrames := 3,
    read := fun _ => ReadOutcome.ok, writeRaises := fun _ => false,
    writeOk := fun _ => true, basename := "video.mp4" }

/-- A video the sampler raises on (its first read throws), used to exercise
the batch driver's per-entry exception handling. -/
def envReadRaises : VideoEnv :=
  { isFile := true, opens := true, fps := 1, totalFrames := 3,
    read := fun _ => ReadOutcome.raiseExn, writeRaises := fun _ => false,
    writeOk := fun _ => true, basename := "video.mp4" }

/-! ### Decimal digits -/

theorem repr10Aux_eq_digits : ∀ fuel n, n ≤ fuel → repr10Aux fuel n = Nat.digits 10 n
  | 0, 0, _ => by simp [repr10Aux]
  | 0, n + 1, h => absurd h (by omega)
  | _ + 1, 0, _ => by simp [repr10Aux]
  | fuel + 1, n + 1, h => by
    rw [repr10Aux, Nat.digits_def' (by norm_num : (1 : ℕ) < 10) (Nat.succ_pos n)]
    congr 1
    exact repr10Aux_eq_digits fuel ((n + 1) / 10) (by omega)

theorem repr10_eq_digits (n : ℕ) : repr10 n = (Nat.digits 10 n).reverse := by
  rw [repr10, repr10Aux_eq_digits n n le_rfl]

/-! ### Floor arithmetic for the time fields -/

theorem floor_div_nat_eq (a : ℚ) (n : ℕ) (hn : 0 < n) : ⌊a / (n : ℚ)⌋ = ⌊a⌋ / (n : ℤ) := by
  have hn' : (0 : ℤ) < (n : ℤ) := by exact_mod_cast hn
  have hnq : (0 : ℚ) < (n : ℚ) := by exact_mod_cast hn
  apply le_antisymm
  · rw [Int.le_ediv_iff_mul_le hn', Int.le_floor]
    push_cast
    rw [← le_div_iff₀ hnq]
    exact Int.floor_le _
  · rw [Int.le_floor]
    rw [le_div_iff₀ hnq]
    have h1 : (⌊a⌋ / (n : ℤ)) * (n : ℤ) ≤ ⌊a⌋ := Int.ediv_mul_le _ hn'.ne'
    calc ((⌊a⌋ / (n : ℤ) : ℤ) : ℚ) * (n : ℚ) = (((⌊a⌋ / (n : ℤ)) * (n : ℤ) : ℤ) : ℚ) := by
          push_cast; ring
      _ ≤ ((⌊a⌋ : ℤ) : ℚ) := by exact_mod_cast h1
      _ ≤ a := Int.floor_le a

theorem floor_div_3600 (a : ℚ) : ⌊a / 3600⌋ = ⌊a⌋ / 3600 := by
  have := floor_div_nat_eq a 3600 (by norm_num)
  push_cast at this
  exact this

theorem floor_div_60 (a : ℚ) : ⌊a / 60⌋ = ⌊a⌋ / 60 := by
  have := floor_div_nat_eq a 60 (by norm_num)
  push_cast at this
  exact this

theorem floor_thousand_bounds (t : ℚ) :
    1000 * ⌊t⌋ ≤ ⌊1000 * t⌋ ∧ ⌊1000 * t⌋ < 1000 * ⌊t⌋ + 1000 := by
  constructor
  · rw [Int.le_floor]
    push_cast
    have := Int.floor_le t
    linarith
  · have h2 : 1000 * t < ((1000 * ⌊t⌋ + 1000 : ℤ) : ℚ) := by
      push_cast
      have := Int.lt_floor_add_one t
      linarith
    exact Int.floor_lt.mpr h2

theorem pytrunc_of_nonneg {q : ℚ} (h : 0 ≤ q) : pytrunc q = ⌊q⌋ := by
  rw [pytrunc, if_neg (not_lt.mpr h)]

theorem pymod_nonneg (a : ℚ) {b : ℚ} (hb : 0 < b) : 0 ≤ pymod a b := by
  rw [pymod]
  have h1 : b * ⌊a / b⌋ ≤ b * (a / b) :=
    mul_le_mul_of_nonneg_left (Int.floor_le _) hb.le
  have h2 : b * (a / b) = a := by field_simp
  linarith

theorem hoursField (t : ℚ) : ⌊t / 3600⌋ = ⌊t⌋ / 3600 := floor_div_3600 t

theorem minutesField (t : ℚ) : ⌊pymod t 3600 / 60⌋ = ⌊t⌋ % 3600 / 60 := by
  have h1 : pymod t 3600 / 60 = t / 60 - ((60 * (⌊t⌋ / 3600) : ℤ) : ℚ) := by
    rw [pymod, floor_div_3600]
    push_cast
    ring
  rw [h1, Int.floor_sub_int, floor_div_60]
  omega

theorem secondsField (t : ℚ) : pytrunc (pymod t 60) = ⌊t⌋ % 60 := by
  rw [pytrunc_of_nonneg (pymod_nonneg t (by norm_num))]
  have h1 : pymod t 60 = t - ((60 * (⌊t⌋ / 60) : ℤ) : ℚ) := by
    rw [pymod, floor_div_60]
    push_cast
    ring
  rw [h1, Int.floor_sub_int]
  omega

theorem msField (t : ℚ) (ht : 0 ≤ t) :
    pytrunc ((t - (pytrunc t : ℚ)) * 1000) = ⌊1000 * t⌋ % 1000 := by
  rw [pytrunc_of_nonneg ht]
  have hfr : (0 : ℚ) ≤ t - (⌊t⌋ : ℚ) := by
    have := Int.floor_le t
    linarith
  rw [pytrunc_of_nonneg (by positivity)]
  have h1 : (t - (⌊t⌋ : ℚ)) * 1000 = 1000 * t - ((1000 * ⌊t⌋ : ℤ) : ℚ) := by
    push_cast
    ring
  rw [h1, Int.floor_sub_int]
  have := floor_thousand_bounds t
  omega

theorem intFieldChars_of_nonneg {w : ℕ} {i : ℤ} (h : 0 ≤ i) :
    intFieldChars w i = fieldChars w i.toNat := by
  rw [intFieldChars, if_neg (not_lt.mpr h)]

/-- The normal form of `format_time` on nonnegative inputs: every field is a
truncation of the total-millisecond count `⌊1000·t⌋`, zero-padded to widths
2, 2, 2, 3. -/
theorem format_time_normal (t : ℚ) (ht : 0 ≤ t) :
    format_time t = String.mk (timeChars ((⌊1000 * t⌋).toNat / 3600000)
      ((⌊1000 * t⌋).toNat / 60000 % 60) ((⌊1000 * t⌋).toNat / 1000 % 60)
      ((⌊1000 * t⌋).toNat % 1000)) := by
  have hF : (0 : ℤ) ≤ ⌊t⌋ := Int.floor_nonneg.mpr ht
  have hT := floor_thousand_bounds t
  rw [format_time, hoursField, minutesField, secondsField, msField t ht,
    intFieldChars_of_nonneg (by omega), intFieldChars_of_nonneg (by omega),
    intFieldChars_of_nonneg (by omega), intFieldChars_of_nonneg (by omega)]
  have e1 : (⌊t⌋ / 3600).toNat = (⌊1000 * t⌋).toNat / 3600000 := by omega
  have e2 : (⌊t⌋ % 3600 / 60).toNat = (⌊1000 * t⌋).toNat / 60000 % 60 := by omega
  have e3 : (⌊t⌋ % 60).toNat = (⌊1000 * t⌋).toNat / 1000 % 60 := by omega
  have e4 : (⌊1000 * t⌋ % 1000).toNat = (⌊1000 * t⌋).toNat % 1000 := by omega
  rw [e1, e2, e3, e4, timeChars]
  congr 1
  simp [List.append_assoc]

/-! ### Injectivity of the rendered timestamp -/

theorem repr10_length_le {n w : ℕ} (h : n < 10 ^ w) : (repr10 n).length ≤ w := by
  rw [repr10_eq_digits, List.length_reverse]
  rcases Nat.eq_zero_or_pos n with rfl | hn
  · simp
  by_contra hlt
  push_neg at hlt
  have h10 : (10 : ℕ) ^ (Nat.digits 10 n).length ≤ 10 * n :=
    Nat.base_pow_length_digits_le 10 n (by norm_num) hn.ne'
  have hpow : (10 : ℕ) ^ (w + 1) ≤ 10 ^ (Nat.digits 10 n).length :=
    Nat.pow_le_pow_right (by norm_num) hlt
  have hlt2 : 10 * n < 10 ^ (w + 1) := by
    have hstep : 10 * n < 10 * 10 ^ w := by omega
    calc 10 * n < 10 * 10 ^ w := hstep
      _ = 10 ^ (w + 1) := by rw [pow_succ]; ring
  omega

theorem fieldChars_length {w n : ℕ} (h : n < 10 ^ w) : (fieldChars w n).length = w := by
  rw [fieldChars, List.length_map, padDigits, List.length_append, List.length_replicate]
  have := repr10_length_le h
  omega

theorem repr10_digits_lt {n : ℕ} : ∀ d ∈ repr10 n, d < 10 := by
  rw [repr10_eq_digits]
  intro d hd
  exact Nat.digits_lt_base (by norm_num) (List.mem_reverse.mp hd)

theorem padDigits_digits_lt {w n : ℕ} : ∀ d ∈ padDigits w (repr10 n), d < 10 := by
  intro d hd
  rw [padDigits, List.mem_append] at hd
  rcases hd with hd | hd
  · have := List.eq_of_mem_replicate hd
    omega
  · exact repr10_digits_lt d hd

theorem digitChar_inj_lt : ∀ d1 d2 : Fin 10,
    Nat.digitChar d1 = Nat.digitChar d2 → d1 = d2 := by decide

theorem map_digitChar_inj : ∀ l1 l2 : List ℕ, (∀ d ∈ l1, d < 10) → (∀ d ∈ l2, d < 10) →
    l1.map Nat.digitChar = l2.map Nat.digitChar → l1 = l2
  | [], [], _, _, _ => rfl
  | [], _ :: _, _, _, h => by simp at h
  | _ :: _, [], _, _, h => by simp at h
  | a :: l1, b :: l2, h1, h2, h => by
    simp only [List.map_cons, List.cons.injEq] at h
    have ha : a < 10 := h1 a (List.mem_cons_self a l1)
    have hb : b < 10 := h2 b (List.mem_cons_self b l2)
    have hab : (⟨a, ha⟩ : Fin 10) = ⟨b, hb⟩ := digitChar_inj_lt ⟨a, ha⟩ ⟨b, hb⟩ h.1
    have htl := map_digitChar_inj l1 l2 (fun d hd => h1 d (List.mem_cons_of_mem a hd))
      (fun d hd => h2 d (List.mem_cons_of_mem b hd)) h.2
    simp only [Fin.mk.injEq] at hab
    rw [hab, htl]

theorem ofDigits_replicate_zero : ∀ k : ℕ, Nat.ofDigits 10 (List.replicate k 0) = 0
  | 0 => rfl
  | k + 1 => by
    rw [List.replicate_succ, Nat.ofDigits_cons, ofDigits_replicate_zero k]

theorem digitsVal_padDigits (w n : ℕ) : digitsVal (padDigits w (repr10 n)) = n := by
  rw [digitsVal, padDigits, List.reverse_append, List.reverse_replicate, repr10_eq_digits,
    List.reverse_reverse, Nat.ofDigits_append, Nat.ofDigits_digits, ofDigits_replicate_zero]
  ring

theorem fieldChars_inj {w n1 n2 : ℕ} (h : fieldChars w n1 = fieldChars w n2) : n1 = n2 := by
  have hds := map_digitChar_inj _ _ padDigits_digits_lt padDigits_digits_lt h
  have hv := congrArg digitsVal hds
  rwa [digitsVal_padDigits, digitsVal_padDigits] at hv

theorem timeChars_inj {h1 m1 s1 ms1 h2 m2 s2 ms2 : ℕ}
    (hm1 : m1 < 100) (hs1 : s1 < 100) (hms1 : ms1 < 1000)
    (hm2 : m2 < 100) (hs2 : s2 < 100) (hms2 : ms2 < 1000)
    (heq : timeChars h1 m1 s1 ms1 = timeChars h2 m2 s2 ms2) :
    h1 = h2 ∧ m1 = m2 ∧ s1 = s2 ∧ ms1 = ms2 := by
  rw [timeChars, timeChars] at heq
  have lm1 : (fieldChars 2 m1).length = 2 := fieldChars_length (by omega)
  have lm2 : (fieldChars 2 m2).length = 2 := fieldChars_length (by omega)
  have ls1 : (fieldChars 2 s1).length = 2 := fieldChars_length (by omega)
  have ls2 : (fieldChars 2 s2).length = 2 := fieldChars_length (by omega)
  have lms1 : (fieldChars 3 ms1).length = 3 := fieldChars_length (by omega)
  have lms2 : (fieldChars 3 ms2).length = 3 := fieldChars_length (by omega)
  obtain ⟨hH, hRest⟩ := List.append_inj' heq (by simp [lm1, lm2, ls1, ls2, lms1, lms2])
  refine ⟨fieldChars_inj hH, ?_⟩
  simp only [List.cons.injEq, true_and] at hRest
  obtain ⟨hM, hRest2⟩ := List.append_inj' hRest (by simp [ls1, ls2, lms1, lms2])
  refine ⟨fieldChars_inj hM, ?_⟩
  simp only [List.cons.injEq, true_and] at hRest2
  obtain ⟨hS, hRest3⟩ := List.append_inj' hRest2 (by simp [lms1, lms2])
  refine ⟨fieldChars_inj hS, ?_⟩
  simp only [List.cons.injEq, true_and] at hRest3
  obtain ⟨hMs, -⟩ := List.append_inj' hRest3 (by simp)
  exact fieldChars_inj hMs

theorem msTotal_fields_inj {T1 T2 : ℕ}
    (e1 : T1 / 3600000 = T2 / 3600000) (e2 : T1 / 60000 % 60 = T2 / 60000 % 60)
    (e3 : T1 / 1000 % 60 = T2 / 1000 % 60) (e4 : T1 % 1000 = T2 % 1000) : T1 = T2 := by
  omega

/-- On nonnegative inputs, equal formatted timestamps force equal truncated
total-millisecond counts. -/
theorem format_time_inj {t1 t2 : ℚ} (ht1 : 0 ≤ t1) (ht2 : 0 ≤ t2)
    (heq : format_time t1 = format_time t2) : ⌊1000 * t1⌋ = ⌊1000 * t2⌋ := by
  rw [format_time_normal t1 ht1, format_time_normal t2 ht2] at heq
  have hlists : timeChars ((⌊1000 * t1⌋).toNat / 3600000) ((⌊1000 * t1⌋).toNat / 60000 % 60)
      ((⌊1000 * t1⌋).toNat / 1000 % 60) ((⌊1000 * t1⌋).toNat % 1000)
      = timeChars ((⌊1000 * t2⌋).toNat / 3600000) ((⌊1000 * t2⌋).toNat / 60000 % 60)
      ((⌊1000 * t2⌋).toNat / 1000 % 60) ((⌊1000 * t2⌋).toNat % 1000) :=
    congrArg String.data heq
  obtain ⟨e1, e2, e3, e4⟩ := timeChars_inj (by omega) (by omega) (by omega)
    (by omega) (by omega) (by omega) hlists
  have hTeq : (⌊1000 * t1⌋).toNat = (⌊1000 * t2⌋).toNat := msTotal_fields_inj e1 e2 e3 e4
  have hnn1 : (0 : ℤ) ≤ ⌊1000 * t1⌋ := Int.floor_nonneg.mpr (by positivity)
  have hnn2 : (0 : ℤ) ≤ ⌊1000 * t2⌋ := Int.floor_nonneg.mpr (by positivity)
  omega

/-! ### Closed form of the sampling loop -/

theorem time_le_dur_iff (e : VideoEnv) (I : ℚ) (hI : 0 < I) (hfps : 0 < e.fps)
    (htot : 0 ≤ e.totalFrames) (k : ℕ) :
    (k : ℚ) * I ≤ (e.totalFrames : ℚ) / e.fps ↔ k ≤ floorDI e I := by
  have hD : (0 : ℚ) ≤ (e.totalFrames : ℚ) / e.fps := by
    have h0 : (0 : ℚ) ≤ (e.totalFrames : ℚ) := by exact_mod_cast htot
    positivity
  have h1 : (k : ℚ) * I ≤ (e.totalFrames : ℚ) / e.fps ↔
      ((k : ℤ) : ℚ) ≤ (e.totalFrames : ℚ) / e.fps / I := by
    rw [le_div_iff₀ hI]
    push_cast
    tauto
  have h2 : (((k : ℤ) : ℚ) ≤ (e.totalFrames : ℚ) / e.fps / I) ↔
      (k : ℤ) ≤ ⌊(e.totalFrames : ℚ) / e.fps / I⌋ := (Int.le_floor).symm
  have h3 : (0 : ℤ) ≤ ⌊(e.totalFrames : ℚ) / e.fps / I⌋ :=
    Int.floor_nonneg.mpr (by positivity)
  rw [h1, h2, floorDI]
  omega

theorem sampleLoop_normal (e : VideoEnv) (I : ℚ) (hI : 0 < I) (hfps : 0 < e.fps)
    (htot : 0 ≤ e.totalFrames)
    (hnr : ∀ f, e.read f ≠ ReadOutcome.raiseExn) (hwr : ∀ f, e.writeRaises f = false) :
    ∀ fuel k, floorDI e I + 1 - k ≤ fuel →
      sampleLoop e I ((e.totalFrames : ℚ) / e.fps) fuel ((k : ℚ) * I) =
        { saved := (((List.range' k (floorDI e I + 1 - k)).takeWhile
              (inBound e I)).filter (okAt e I)).length,
          fails := (((List.range' k (floorDI e I + 1 - k)).takeWhile
              (inBound e I)).filter (fun j => ! okAt e I j)).length,
          files := (((List.range' k (floorDI e I + 1 - k)).takeWhile
              (inBound e I)).filter (okAt e I)).map
              (fun (j : ℕ) => mkFilename e.basename ((j : ℚ) * I)),
          exn := false } := by
  intro fuel
  induction fuel with
  | zero =>
    intro k hk
    have h0 : floorDI e I + 1 - k = 0 := by omega
    rw [h0]
    simp [sampleLoop]
  | succ m ih =>
    intro k hk
    by_cases hkN : k ≤ floorDI e I
    · have hle : (k : ℚ) * I ≤ (e.totalFrames : ℚ) / e.fps :=
        (time_le_dur_iff e I hI hfps htot k).mpr hkN
      have hsplit : floorDI e I + 1 - k = (floorDI e I - k) + 1 := by omega
      rw [hsplit, List.range'_succ]
      cases hb : inBound e I k with
      | false =>
        have hgeq : e.totalFrames ≤ ⌊((k : ℚ) * I) * e.fps⌋ := by
          have hb' := hb
          rw [inBound, decide_eq_false_iff_not, targetOf, not_lt] at hb'
          exact hb'
        rw [sampleLoop, if_pos hle, if_pos hgeq]
        simp [List.takeWhile_cons, hb]
      | true =>
        have hlt : ⌊((k : ℚ) * I) * e.fps⌋ < e.totalFrames := by
          have hb' := hb
          rw [inBound, decide_eq_true_eq, targetOf] at hb'
          exact hb'
        have hnot : ¬ e.totalFrames ≤ ⌊((k : ℚ) * I) * e.fps⌋ := not_le.mpr hlt
        have harg : (k : ℚ) * I + I = ((k + 1 : ℕ) : ℚ) * I := by push_cast; ring
        have hih := ih (k + 1) (by omega)
        have htl : floorDI e I + 1 - (k + 1) = floorDI e I - k := by omega
        rw [htl] at hih
        cases hread : e.read ⌊((k : ℚ) * I) * e.fps⌋ with
        | raiseExn => exact absurd hread (hnr _)
        | fail =>
          have hok : okAt e I k = false := by
            simp [okAt, targetOf, hread]
          rw [sampleLoop, if_pos hle, if_neg hnot, hread]
          rw [harg, hih]
          simp [List.takeWhile_cons, hb, List.filter_cons, hok]
        | ok =>
          have hok : okAt e I k = true := by
            simp [okAt, targetOf, hread]
          have hw : e.writeRaises ⌊((k : ℚ) * I) * e.fps⌋ = false := hwr _
          rw [sampleLoop, if_pos hle, if_neg hnot, hread, hw]
          rw [harg, hih]
          simp [List.takeWhile_cons, hb, List.filter_cons, hok]
    · have h0 : floorDI e I + 1 - k = 0 := by omega
      have hgt : ¬ ((k : ℚ) * I ≤ (e.totalFrames : ℚ) / e.fps) := by
        rw [time_le_dur_iff e I hI hfps htot k]
        omega
      rw [h0]
      rw [sampleLoop, if_neg hgt]
      simp

/-- Normal form of a full `extract_frames_by_interval` run on an opened video
with positive frame rate, positive interval, and no exception raised by the
decoder or encoder. -/
theorem extract_normal (e : VideoEnv) (I : ℚ) (fuel : ℕ) (hfile : e.isFile = true)
    (hopen : e.opens = true) (hI : 0 < I) (hfps : 0 < e.fps) (htot : 0 ≤ e.totalFrames)
    (hnr : ∀ f, e.read f ≠ ReadOutcome.raiseExn) (hwr : ∀ f, e.writeRaises f = false)
    (hfuel : floorDI e I + 1 ≤ fuel) :
    extract_frames_by_interval e I fuel =
      { saved := ((executedIters e I (floorDI e I + 1)).filter (okAt e I)).length,
        warnings := ((executedIters e I (floorDI e I + 1)).filter
            (fun j => ! okAt e I j)).length,
        releases := 1,
        dirCreated := true,
        files := ((executedIters e I (floorDI e I + 1)).filter (okAt e I)).map
            (fun (j : ℕ) => mkFilename e.basename ((j : ℚ) * I)),
        exn := false } := by
  have hz : ¬ e.fps = 0 := ne_of_gt hfps
  have h00 : (0 : ℚ) = ((0 : ℕ) : ℚ) * I := by push_cast; ring
  have hlo := sampleLoop_normal e I hI hfps htot hnr hwr fuel 0 (by omega)
  rw [extract_frames_by_interval, hfile, hopen]
  simp only [Bool.not_true, if_neg (by simp : ¬ (false = true)), if_pos hfps, if_neg hz]
  rw [h00, hlo]
  simp only [Nat.sub_zero]
  rw [executedIters, List.range_eq_range']
  simp

/-- The Boolean returned by `cv2.imwrite` never influences the loop's
behaviour: the code binds and discards it. -/
theorem sampleLoop_writeOk_irrelevant (e : VideoEnv) (w1 w2 : ℤ → Bool) (I dur : ℚ) :
    ∀ fuel t, sampleLoop { e with writeOk := w1 } I dur fuel t
      = sampleLoop { e with writeOk := w2 } I dur fuel t := by
  intro fuel
  induction fuel with
  | zero => intro t; rfl
  | succ m ih =>
    intro t
    simp only [sampleLoop, ih]

theorem extract_writeOk_irrelevant (e : VideoEnv) (w1 w2 : ℤ → Bool) (I : ℚ) (fuel : ℕ) :
    extract_frames_by_interval { e with writeOk := w1 } I fuel
      = extract_frames_by_interval { e with writeOk := w2 } I fuel := by
  rw [extract_frames_by_interval, extract_frames_by_interval]
  simp only [sampleLoop_writeOk_irrelevant e w1 w2]

/-! ### Claim theorems -/

/-- C3: for every non-negative number of seconds `t`, `format_time t` is the
string `HHhMMmSSsMMMms` whose hour, minute, second and millisecond fields are
truncations (not roundings) of `t`, zero-padded to 2, 2, 2 and 3 digits; in
particular `format_time 0 = "00h00m00s000ms"` and
`format_time 3661.5 = "01h01m01s500ms"`. -/
theorem C3_format_time_truncation :
    (∀ t : ℚ, 0 ≤ t →
      format_time t = String.mk (timeChars ((⌊1000 * t⌋).toNat / 3600000)
        ((⌊1000 * t⌋).toNat / 60000 % 60) ((⌊1000 * t⌋).toNat / 1000 % 60)
        ((⌊1000 * t⌋).toNat % 1000))) ∧
    format_time 0 = "00h00m00s000ms" ∧
    format_time (7323 / 2) = "01h01m01s500ms" := by
  refine ⟨fun t ht => format_time_normal t ht, ?_, ?_⟩
  · rw [format_time_normal 0 le_rfl]
    have h0 : ⌊(1000 : ℚ) * 0⌋ = 0 := by norm_num
    rw [h0]
    decide
  · rw [format_time_normal (7323 / 2) (by norm_num)]
    have h1 : ⌊(1000 : ℚ) * (7323 / 2)⌋ = 3661500 := by norm_num
    rw [h1]
    decide

/-- Witness for C3 at `t = 3661.5`. -/
theorem C3_format_time_truncation_witness :
    0 ≤ (7323 / 2 : ℚ) ∧
    format_time (7323 / 2) = String.mk (timeChars ((⌊1000 * (7323 / 2 : ℚ)⌋).toNat / 3600000)
      ((⌊1000 * (7323 / 2 : ℚ)⌋).toNat / 60000 % 60)
      ((⌊1000 * (7323 / 2 : ℚ)⌋).toNat / 1000 % 60)
      ((⌊1000 * (7323 / 2 : ℚ)⌋).toNat % 1000)) :=
  ⟨by norm_num, C3_format_time_truncation.1 (7323 / 2) (by norm_num)⟩

/-- C1: for an opened video with frame rate > 0, `total_frames ≥ 0`,
duration `D = total_frames / fps`, and interval `> 0` (with no exception
raised by decoder or encoder), the number of successful extraction attempts
(`saved_count`) equals `⌊D / interval⌋ + 1` minus the iterations that hit a
read failure (the logged warnings) and minus the iterations cut off from the
first `target_frame ≥ total_frames` on. -/
theorem C1_attempt_count (e : VideoEnv) (I : ℚ) (fuel : ℕ) (hfile : e.isFile = true)
    (hopen : e.opens = true) (hI : 0 < I) (hfps : 0 < e.fps) (htot : 0 ≤ e.totalFrames)
    (hnr : ∀ f, e.read f ≠ ReadOutcome.raiseExn) (hwr : ∀ f, e.writeRaises f = false)
    (hfuel : floorDI e I + 1 ≤ fuel) :
    (extract_frames_by_interval e I fuel).saved
        + (extract_frames_by_interval e I fuel).warnings
        + ((floorDI e I + 1) - (executedIters e I (floorDI e I + 1)).length)
      = floorDI e I + 1 ∧
    (extract_frames_by_interval e I fuel).saved
      = (floorDI e I + 1) - (extract_frames_by_interval e I fuel).warnings
        - ((floorDI e I + 1) - (executedIters e I (floorDI e I + 1)).length) := by
  rw [extract_normal e I fuel hfile hopen hI hfps htot hnr hwr hfuel]
  have hsplit := (executedIters e I (floorDI e I + 1)).length_eq_length_filter_add (okAt e I)
  have hlen : (executedIters e I (floorDI e I + 1)).length ≤ floorDI e I + 1 := by
    have hsub := ((List.range (floorDI e I + 1)).takeWhile_sublist (inBound e I)).length_le
    rw [List.length_range] at hsub
    exact hsub
  constructor
  · dsimp only
    omega
  · dsimp only
    omega

theorem envAllOk_floorDI : floorDI envAllOk 1 = 3 := by
  rw [floorDI]
  norm_num [envAllOk]
  decide

theorem envAllOk_fuel_ok : floorDI envAllOk 1 + 1 ≤ 10 := by
  rw [envAllOk_floorDI]
  norm_num

/-- Witness for C1: a 3-frame video at 1 fps sampled every second; all reads
succeed, `⌊D/I⌋ + 1 = 4`, one iteration is cut off by the end-of-stream
check, so `saved = 3`. -/
theorem C1_attempt_count_witness :
    (envAllOk.isFile = true) ∧ (0 : ℚ) < 1 ∧ (0 : ℚ) < envAllOk.fps ∧ (0 : ℤ) ≤ envAllOk.totalFrames ∧
    ((extract_frames_by_interval envAllOk 1 10).saved
        + (extract_frames_by_interval envAllOk 1 10).warnings
        + ((floorDI envAllOk 1 + 1) - (executedIters envAllOk 1 (floorDI envAllOk 1 + 1)).length)
      = floorDI envAllOk 1 + 1 ∧
    (extract_frames_by_interval envAllOk 1 10).saved
      = (floorDI envAllOk 1 + 1) - (extract_frames_by_interval envAllOk 1 10).warnings
        - ((floorDI envAllOk 1 + 1)
            - (executedIters envAllOk 1 (floorDI envAllOk 1 + 1)).length)) :=
  ⟨rfl, by norm_num, by norm_num [envAllOk], by norm_num [envAllOk],
    C1_attempt_count envAllOk 1 10 rfl rfl (by norm_num) (by norm_num [envAllOk])
      (by norm_num [envAllOk]) (fun f => by simp [envAllOk]) (fun f => rfl) envAllOk_fuel_ok⟩

/-- C4: in every iteration whose frame read fails, the function logs a
warning, does not count the iteration as saved, writes no file for it, does
not abort the job (no exception, the handle is still released), and the loop
continues: every executed iteration with a successful read still contributes
its file. -/
theorem C4_read_failure (e : VideoEnv) (I : ℚ) (fuel : ℕ) (hfile : e.isFile = true)
    (hopen : e.opens = true) (hI : 0 < I) (hfps : 0 < e.fps) (htot : 0 ≤ e.totalFrames)
    (hnr : ∀ f, e.read f ≠ ReadOutcome.raiseExn) (hwr : ∀ f, e.writeRaises f = false)
    (hfuel : floorDI e I + 1 ≤ fuel)
    (k : ℕ) (hk : k ∈ executedIters e I (floorDI e I + 1))
    (hfail : e.read (targetOf e I k) = ReadOutcome.fail) :
    (extract_frames_by_interval e I fuel).exn = false ∧
    (extract_frames_by_interval e I fuel).releases = 1 ∧
    1 ≤ (extract_frames_by_interval e I fuel).warnings ∧
    okAt e I k = false ∧
    (extract_frames_by_interval e I fuel).saved
      = ((executedIters e I (floorDI e I + 1)).filter (okAt e I)).length ∧
    ∀ j ∈ executedIters e I (floorDI e I + 1), okAt e I j = true →
      mkFilename e.basename ((j : ℚ) * I) ∈ (extract_frames_by_interval e I fuel).files := by
  have hok : okAt e I k = false := by simp [okAt, hfail]
  rw [extract_normal e I fuel hfile hopen hI hfps htot hnr hwr hfuel]
  refine ⟨rfl, rfl, ?_, hok, rfl, ?_⟩
  · have hmem : k ∈ (executedIters e I (floorDI e I + 1)).filter (fun j => ! okAt e I j) :=
      List.mem_filter.mpr ⟨hk, by rw [hok]; rfl⟩
    have hpos := List.length_pos.mpr (List.ne_nil_of_mem hmem)
    dsimp only
    omega
  · intro j hj hjok
    dsimp only
    exact List.mem_map_of_mem _ (List.mem_filter.mpr ⟨hj, hjok⟩)

theorem envOneFail_floorDI : floorDI envOneFail 1 = 3 := by
  rw [floorDI]
  norm_num [envOneFail]
  decide

theorem envOneFail_executed :
    executedIters envOneFail 1 (floorDI envOneFail 1 + 1) = [0, 1, 2] := by
  rw [envOneFail_floorDI, executedIters]
  have h0 : inBound envOneFail 1 0 = true := by norm_num [inBound, targetOf, envOneFail]
  have h1 : inBound envOneFail 1 1 = true := by norm_num [inBound, targetOf, envOneFail]
  have h2 : inBound envOneFail 1 2 = true := by norm_num [inBound, targetOf, envOneFail]
  have h3 : inBound envOneFail 1 3 = false := by norm_num [inBound, targetOf, envOneFail]
  rw [show List.range 4 = [0, 1, 2, 3] from rfl]
  simp [List.takeWhile_cons, h0, h1, h2, h3]

/-- Witness for C4: the read of frame 1 of a 3-frame 1-fps video fails. -/
theorem C4_read_failure_witness :
    (1 ∈ executedIters envOneFail 1 (floorDI envOneFail 1 + 1)) ∧
    envOneFail.read (targetOf envOneFail 1 1) = ReadOutcome.fail ∧
    ((extract_frames_by_interval envOneFail 1 10).exn = false ∧
      (extract_frames_by_interval envOneFail 1 10).releases = 1 ∧
      1 ≤ (extract_frames_by_interval envOneFail 1 10).warnings ∧
      okAt envOneFail 1 1 = false ∧
      (extract_frames_by_interval envOneFail 1 10).saved
        = ((executedIters envOneFail 1 (floorDI envOneFail 1 + 1)).filter
            (okAt envOneFail 1)).length ∧
      ∀ j ∈ executedIters envOneFail 1 (floorDI envOneFail 1 + 1), okAt envOneFail 1 j = true →
        mkFilename envOneFail.basename ((j : ℚ) * 1)
          ∈ (extract_frames_by_interval envOneFail 1 10).files) :=
  ⟨by rw [envOneFail_executed]; simp,
   by norm_num [envOneFail, targetOf],
   C4_read_failure envOneFail 1 10 rfl rfl (by norm_num) (by norm_num [envOneFail])
     (by norm_num [envOneFail]) (fun f => by simp [envOneFail]; split <;> simp)
     (fun f => rfl) (by rw [envOneFail_floorDI]; norm_num)
     1 (by rw [envOneFail_executed]; simp) (by norm_num [envOneFail, targetOf])⟩

theorem targetOf_zero (e : VideoEnv) (I : ℚ) : targetOf e I 0 = 0 := by
  simp [targetOf]

/-- C6: if the video opens with frame rate > 0 and `total_frames > 0`, and
`interval ≥ duration`, exactly one extraction is attempted, at
`current_time = 0` (it is saved when the read succeeds, otherwise it is the
single logged warning). -/
theorem C6_single_attempt (e : VideoEnv) (I : ℚ) (fuel : ℕ) (hfile : e.isFile = true)
    (hopen : e.opens = true) (hfps : 0 < e.fps) (htotpos : 0 < e.totalFrames)
    (hnr : ∀ f, e.read f ≠ ReadOutcome.raiseExn) (hwr : ∀ f, e.writeRaises f = false)
    (hID : (e.totalFrames : ℚ) / e.fps ≤ I) (hfuel : floorDI e I + 1 ≤ fuel) :
    (extract_frames_by_interval e I fuel).saved
        + (extract_frames_by_interval e I fuel).warnings = 1 ∧
    (e.read 0 = ReadOutcome.ok →
      (extract_frames_by_interval e I fuel).files = [mkFilename e.basename 0] ∧
      (extract_frames_by_interval e I fuel).saved = 1) ∧
    (e.read 0 = ReadOutcome.fail →
      (extract_frames_by_interval e I fuel).files = [] ∧
      (extract_frames_by_interval e I fuel).saved = 0 ∧
      (extract_frames_by_interval e I fuel).warnings = 1) := by
  have htotq : (0 : ℚ) < (e.totalFrames : ℚ) := by exact_mod_cast htotpos
  have hD : (0 : ℚ) < (e.totalFrames : ℚ) / e.fps := div_pos htotq hfps
  have hI : 0 < I := lt_of_lt_of_le hD hID
  have hb0 : inBound e I 0 = true := by
    rw [inBound, targetOf_zero, decide_eq_true_eq]
    omega
  have hexec : executedIters e I (floorDI e I + 1) = [0] := by
    have hDIle : (e.totalFrames : ℚ) / e.fps / I ≤ 1 := by
      rw [div_le_one hI]
      exact hID
    have hfl1 : ⌊(e.totalFrames : ℚ) / e.fps / I⌋ ≤ 1 := by
      have h1 : ⌊(e.totalFrames : ℚ) / e.fps / I⌋ ≤ ⌊(1 : ℚ)⌋ := Int.floor_le_floor hDIle
      simpa using h1
    have hfl0 : 0 ≤ ⌊(e.totalFrames : ℚ) / e.fps / I⌋ :=
      Int.floor_nonneg.mpr (by positivity)
    have hN : floorDI e I = 0 ∨ floorDI e I = 1 := by
      rw [floorDI]
      omega
    rcases hN with hN | hN
    · rw [hN, executedIters, show List.range 1 = [0] from rfl]
      simp [List.takeWhile_cons, hb0]
    · have hIeqD : I = (e.totalFrames : ℚ) / e.fps := by
        have h1 : (1 : ℤ) ≤ ⌊(e.totalFrames : ℚ) / e.fps / I⌋ := by
          rw [floorDI] at hN
          omega
        have h2 : (1 : ℚ) ≤ (e.totalFrames : ℚ) / e.fps / I := by
          have := Int.le_floor.mp h1
          exact_mod_cast this
        have h3 : I ≤ (e.totalFrames : ℚ) / e.fps := by
          rw [le_div_iff₀ hI] at h2
          linarith
        linarith
      have hb1 : inBound e I 1 = false := by
        rw [inBound, targetOf, decide_eq_false_iff_not, not_lt]
        have harg : ((1 : ℕ) : ℚ) * I * e.fps = (e.totalFrames : ℚ) := by
          rw [hIeqD]
          push_cast
          field_simp
        rw [harg]
        simp
      rw [hN, executedIters, show List.range 2 = [0, 1] from rfl]
      simp [List.takeWhile_cons, hb0, hb1]
  rw [extract_normal e I fuel hfile hopen hI hfps (le_of_lt htotpos) hnr hwr hfuel, hexec]
  cases hr : e.read 0 with
  | raiseExn => exact absurd hr (hnr 0)
  | ok =>
    have hok : okAt e I 0 = true := by
      rw [okAt, targetOf_zero, hr]
      rfl
    refine ⟨?_, fun _ => ⟨?_, ?_⟩, fun hcon => ?_⟩
    · dsimp only
      simp [hok]
    · dsimp only
      simp [hok]
    · dsimp only
      simp [hok]
    · cases hcon
  | fail =>
    have hok : okAt e I 0 = false := by
      rw [okAt, targetOf_zero, hr]
      rfl
    refine ⟨?_, fun hcon => ?_, fun _ => ⟨?_, ?_, ?_⟩⟩
    · dsimp only
      simp [hok]
    · cases hcon
    · dsimp only
      simp [hok]
    · dsimp only
      simp [hok]
    · dsimp only
      simp [hok]

/-- Witness for C6: a 3-second video sampled every 5 seconds saves exactly
the frame at `t = 0`. -/
theorem C6_single_attempt_witness :
    ((envAllOk.totalFrames : ℚ) / envAllOk.fps ≤ 5) ∧
    ((extract_frames_by_interval envAllOk 5 10).saved
        + (extract_frames_by_interval envAllOk 5 10).warnings = 1 ∧
      (envAllOk.read 0 = ReadOutcome.ok →
        (extract_frames_by_interval envAllOk 5 10).files = [mkFilename envAllOk.basename 0] ∧
        (extract_frames_by_interval envAllOk 5 10).saved = 1) ∧
      (envAllOk.read 0 = ReadOutcome.fail →
        (extract_frames_by_interval envAllOk 5 10).files = [] ∧
        (extract_frames_by_interval envAllOk 5 10).saved = 0 ∧
        (extract_frames_by_interval envAllOk 5 10).warnings = 1)) :=
  ⟨by norm_num [envAllOk],
   C6_single_attempt envAllOk 5 10 rfl rfl (by norm_num [envAllOk]) (by norm_num [envAllOk])
     (fun f => by simp [envAllOk]) (fun f => rfl) (by norm_num [envAllOk])
     (by rw [floorDI]; norm_num [envAllOk])⟩

/-- C9: on a successful read, `saved_count` is incremented whether or not
`cv2.imwrite` reports success: the whole run is independent of the Boolean
the encoder returns, and the reported count is the number of successful-read
iterations (write attempts), not confirmed writes. -/
theorem C9_write_result_ignored (e : VideoEnv) (I : ℚ) (fuel : ℕ) (w1 w2 : ℤ → Bool)
    (hfile : e.isFile = true) (hopen : e.opens = true) (hI : 0 < I) (hfps : 0 < e.fps)
    (htot : 0 ≤ e.totalFrames) (hnr : ∀ f, e.read f ≠ ReadOutcome.raiseExn)
    (hwr : ∀ f, e.writeRaises f = false) (hfuel : floorDI e I + 1 ≤ fuel) :
    (extract_frames_by_interval { e with writeOk := w1 } I fuel
      = extract_frames_by_interval { e with writeOk := w2 } I fuel) ∧
    (extract_frames_by_interval e I fuel).saved
      = ((executedIters e I (floorDI e I + 1)).filter (okAt e I)).length :=
  ⟨extract_writeOk_irrelevant e w1 w2 I fuel, by
    rw [extract_normal e I fuel hfile hopen hI hfps htot hnr hwr hfuel]⟩

/-- Witness for C9 on the 3-frame video, with an encoder that always reports
failure versus one that always reports success. -/
theorem C9_write_result_ignored_witness :
    (0 : ℚ) < 1 ∧
    ((extract_frames_by_interval { envAllOk with writeOk := fun _ => true } 1 10
      = extract_frames_by_interval { envAllOk with writeOk := fun _ => false } 1 10) ∧
    (extract_frames_by_interval envAllOk 1 10).saved
      = ((executedIters envAllOk 1 (floorDI envAllOk 1 + 1)).filter (okAt envAllOk 1)).length) :=
  ⟨by norm_num,
   C9_write_result_ignored envAllOk 1 10 (fun _ => true) (fun _ => false) rfl rfl
     (by norm_num) (by norm_num [envAllOk]) (by norm_num [envAllOk])
     (fun f => by simp [envAllOk]) (fun f => rfl) envAllOk_fuel_ok⟩

/-- C10: the output directory is created only after the open and metadata
checks pass: when the path is not a regular file, the capture does not open,
or the frame rate is 0, the function returns with no directory created and no
file written; when all three checks pass the directory is created. -/
theorem C10_dir_created_only_after_validation (e : VideoEnv) (I : ℚ) (fuel : ℕ) :
    ((e.isFile = false ∨ e.opens = false ∨ e.fps = 0) →
      (extract_frames_by_interval e I fuel).dirCreated = false ∧
      (extract_frames_by_interval e I fuel).files = []) ∧
    (e.isFile = true → e.opens = true → e.fps ≠ 0 →
      (extract_frames_by_interval e I fuel).dirCreated = true) := by
  constructor
  · intro h
    rcases h with h | h | h
    · simp [extract_frames_by_interval, h]
    · cases hf : e.isFile with
      | false => simp [extract_frames_by_interval, hf]
      | true => simp [extract_frames_by_interval, hf, h]
    · cases hf : e.isFile with
      | false => simp [extract_frames_by_interval, hf]
      | true =>
        cases ho : e.opens with
        | false => simp [extract_frames_by_interval, hf, ho]
        | true => simp [extract_frames_by_interval, hf, ho, h]
  · intro h1 h2 h3
    simp only [extract_frames_by_interval, h1, h2, Bool.not_true, Bool.false_eq_true,
      if_false, if_neg h3]
    cases hexn : (sampleLoop e I (if 0 < e.fps then (e.totalFrames : ℚ) / e.fps else 0)
        fuel 0).exn <;> simp [hexn]

/-- Witness for C10: a missing input file leaves the filesystem untouched. -/
theorem C10_dir_created_only_after_validation_witness :
    (envNoFile.isFile = false ∨ envNoFile.opens = false ∨ envNoFile.fps = 0) ∧
    ((extract_frames_by_interval envNoFile 1 5).dirCreated = false ∧
      (extract_frames_by_interval envNoFile 1 5).files = []) :=
  ⟨Or.inl rfl, (C10_dir_created_only_after_validation envNoFile 1 5).1 (Or.inl rfl)⟩

/-- C5 (amended): once the capture is opened, the handle is released exactly
once on the non-exceptional exit paths — normal completion and the
invalid-metadata (`fps == 0`) early return — but an exceptional exit from
within the sampling loop skips the release entirely (the code has no
`try/finally`), so the handle is released zero times there. -/
theorem C5_release_discipline (e : VideoEnv) (I : ℚ) (fuel : ℕ)
    (hfile : e.isFile = true) (hopen : e.opens = true) :
    ((extract_frames_by_interval e I fuel).exn = false →
      (extract_frames_by_interval e I fuel).releases = 1) ∧
    ((extract_frames_by_interval e I fuel).exn = true →
      (extract_frames_by_interval e I fuel).releases = 0) := by
  by_cases hz : e.fps = 0
  · simp [extract_frames_by_interval, hfile, hopen, hz]
  · simp only [extract_frames_by_interval, hfile, hopen, Bool.not_true, Bool.false_eq_true,
      if_false, if_neg hz]
    cases hexn : (sampleLoop e I (if 0 < e.fps then (e.totalFrames : ℚ) / e.fps else 0)
        fuel 0).exn <;> simp [hexn]

/-- Witness for C5's amended claim at a concrete opened video. -/
theorem C5_release_discipline_witness :
    (envRaise.isFile = true) ∧
    (((extract_frames_by_interval envRaise 1 20).exn = false →
      (extract_frames_by_interval envRaise 1 20).releases = 1) ∧
    ((extract_frames_by_interval envRaise 1 20).exn = true →
      (extract_frames_by_interval envRaise 1 20).releases = 0)) :=
  ⟨rfl, C5_release_discipline envRaise 1 20 rfl rfl⟩

theorem envRaise_loop : sampleLoop envRaise 1 10 20 0 = ⟨0, 0, [], true⟩ := by
  rw [show (20 : ℕ) = 19 + 1 from rfl, sampleLoop]
  norm_num [envRaise]

/-- Counterexample to C5 as stated: a run whose image write raises inside the
loop exits exceptionally with the handle never released (not released exactly
once). -/
theorem C5_release_counterexample :
    (extract_frames_by_interval envRaise 1 20).exn = true ∧
    (extract_frames_by_interval envRaise 1 20).releases = 0 := by
  have hdur : (if 0 < envRaise.fps then (envRaise.totalFrames : ℚ) / envRaise.fps else 0)
      = 10 := by norm_num [envRaise]
  have hf : envRaise.isFile = true := rfl
  have ho : envRaise.opens = true := rfl
  have hz : ¬ envRaise.fps = 0 := by norm_num [envRaise]
  rw [extract_frames_by_interval]
  simp only [hf, ho, Bool.not_true, Bool.false_eq_true, if_false, if_neg hz, hdur,
    envRaise_loop]
  simp

theorem batchLoop_spec (I : ℚ) (fuel : ℕ) : ∀ vs : List VideoEnv,
    (batchLoop I fuel vs).invoked = vs.length ∧
    (batchLoop I fuel vs).errorsLogged
      = (vs.filter (fun v => (extract_frames_by_interval v I fuel).exn)).length ∧
    (batchLoop I fuel vs).exn = false
  | [] => ⟨rfl, rfl, rfl⟩
  | v :: vs => by
    obtain ⟨h1, h2, h3⟩ := batchLoop_spec I fuel vs
    rw [batchLoop]
    refine ⟨?_, ?_, rfl⟩
    · dsimp only
      rw [h1, List.length_cons]
    · dsimp only
      rw [h2, List.filter_cons]
      cases hexn : (extract_frames_by_interval v I fuel).exn <;> simp [hexn]

/-- C7: when the input folder exists, the batch driver invokes the Frame
Sampler once per direct entry, every per-entry exception is caught and logged
inside the loop (the error count is exactly the number of raising entries),
and no exception propagates out of the batch call. -/
theorem C7_batch_isolation (folderExists : Bool) (videos : List VideoEnv) (I : ℚ)
    (fuel : ℕ) (hex : folderExists = true) :
    (extract_frames_by_interval_in_folder folderExists videos I fuel).invoked
      = videos.length ∧
    (extract_frames_by_interval_in_folder folderExists videos I fuel).errorsLogged
      = (videos.filter (fun v => (extract_frames_by_interval v I fuel).exn)).length ∧
    (extract_frames_by_interval_in_folder folderExists videos I fuel).exn = false := by
  rw [hex, extract_frames_by_interval_in_folder]
  simp only [Bool.not_true, Bool.false_eq_true, if_false]
  exact batchLoop_spec I fuel videos

/-- Witness for C7: a folder with one video whose decode raises and one good
video; both are processed and nothing propagates. -/
theorem C7_batch_isolation_witness :
    (true = true) ∧
    ((extract_frames_by_interval_in_folder true [envReadRaises, envAllOk] 1 10).invoked = 2 ∧
    (extract_frames_by_interval_in_folder true [envReadRaises, envAllOk] 1 10).errorsLogged
      = (([envReadRaises, envAllOk]).filter
          (fun v => (extract_frames_by_interval v 1 10).exn)).length ∧
    (extract_frames_by_interval_in_folder true [envReadRaises, envAllOk] 1 10).exn = false) :=
  ⟨rfl, C7_batch_isolation true [envReadRaises, envAllOk] 1 10 rfl⟩

/-- C8 fails on the code: the `__main__` block calls
`movie_toolkit.extract_frames_by_interval_in_folder(...)`, but no name
`movie_toolkit` is bound in the module's global namespace (the script never
imports itself), so running the script with two arguments raises a
`NameError` before the batch entry point can run. -/
theorem C8_main_name_unresolved : resolvesInModule mainCallHeadName = false := by decide

theorem mkFilename_inj_time {base : String} {t1 t2 : ℚ}
    (h : mkFilename base t1 = mkFilename base t2) : format_time t1 = format_time t2 := by
  rw [mkFilename, mkFilename] at h
  have hd := congrArg String.data h
  simp only [String.data_append] at hd
  have h1 := List.append_cancel_right hd
  have h2 := List.append_cancel_left h1
  exact String.ext h2

theorem floor_lt_floor_of_add_one_le {x y : ℚ} (h : x + 1 ≤ y) : ⌊x⌋ < ⌊y⌋ := by
  have h1 : ⌊x + 1⌋ ≤ ⌊y⌋ := Int.floor_le_floor h
  rw [Int.floor_add_one] at h1
  omega

theorem mkFilename_ne {base : String} {t1 t2 : ℚ} (h1 : 0 ≤ t1) (h2 : 0 ≤ t2)
    (hsep : t1 + 1 / 1000 ≤ t2) : mkFilename base t1 ≠ mkFilename base t2 := by
  intro heq
  have hf := format_time_inj h1 h2 (mkFilename_inj_time heq)
  have hmul : (1000 : ℚ) * t1 + 1 ≤ 1000 * t2 := by linarith
  have := floor_lt_floor_of_add_one_le hmul
  omega

/-- C2 (amended): for one video and an interval of at least one millisecond,
the produced filenames are the timestamp-derived names of a strictly
increasing list of sampling times and contain no duplicates.  (For positive
intervals below 1 ms the truncation to milliseconds can repeat a filename —
see the counterexample.) -/
theorem C2_filenames_strictly_increasing (e : VideoEnv) (I : ℚ) (fuel : ℕ)
    (hfile : e.isFile = true) (hopen : e.opens = true) (hms : 1 / 1000 ≤ I)
    (hfps : 0 < e.fps) (htot : 0 ≤ e.totalFrames)
    (hnr : ∀ f, e.read f ≠ ReadOutcome.raiseExn) (hwr : ∀ f, e.writeRaises f = false)
    (hfuel : floorDI e I + 1 ≤ fuel) :
    ∃ ts : List ℚ, ts.Pairwise (· < ·) ∧
      (extract_frames_by_interval e I fuel).files = ts.map (mkFilename e.basename) ∧
      (extract_frames_by_interval e I fuel).files.Nodup := by
  have hI : 0 < I := lt_of_lt_of_le (by norm_num) hms
  rw [extract_normal e I fuel hfile hopen hI hfps htot hnr hwr hfuel]
  dsimp only
  have hkpw : ((executedIters e I (floorDI e I + 1)).filter (okAt e I)).Pairwise (· < ·) := by
    have h1 : (List.range (floorDI e I + 1)).Pairwise (· < ·) := List.pairwise_lt_range _
    have hsub : ((executedIters e I (floorDI e I + 1)).filter (okAt e I)).Sublist
        (List.range (floorDI e I + 1)) :=
      (List.filter_sublist _).trans (List.takeWhile_sublist _)
    exact h1.sublist hsub
  refine ⟨((executedIters e I (floorDI e I + 1)).filter (okAt e I)).map
      (fun (j : ℕ) => (j : ℚ) * I), ?_, ?_, ?_⟩
  · refine List.Pairwise.map _ (fun a b hab => ?_) hkpw
    have hc : (a : ℚ) < (b : ℚ) := by exact_mod_cast hab
    exact mul_lt_mul_of_pos_right hc hI
  · rw [List.map_map]
    rfl
  · refine List.Pairwise.map _ (fun a b hab => ?_) hkpw
    have hab1 : (a : ℚ) + 1 ≤ (b : ℚ) := by exact_mod_cast hab
    apply mkFilename_ne (by positivity) (by positivity)
    have hdiff : I ≤ ((b : ℚ) - (a : ℚ)) * I := le_mul_of_one_le_left hI.le (by linarith)
    have hexp : ((b : ℚ) - (a : ℚ)) * I = (b : ℚ) * I - (a : ℚ) * I := by ring
    linarith

/-- Witness for C2's amended claim on the 3-frame video at 1-second interval. -/
theorem C2_filenames_strictly_increasing_witness :
    (1 / 1000 : ℚ) ≤ 1 ∧
    (∃ ts : List ℚ, ts.Pairwise (· < ·) ∧
      (extract_frames_by_interval envAllOk 1 10).files = ts.map (mkFilename envAllOk.basename) ∧
      (extract_frames_by_interval envAllOk 1 10).files.Nodup) :=
  ⟨by norm_num,
   C2_filenames_strictly_increasing envAllOk 1 10 rfl rfl (by norm_num)
     (by norm_num [envAllOk]) (by norm_num [envAllOk]) (fun f => by simp [envAllOk])
     (fun f => rfl) envAllOk_fuel_ok⟩

theorem envDup_floorDI : floorDI envDup (1 / 2000) = 2 := by
  rw [floorDI]
  norm_num [envDup]
  decide

theorem envDup_executed :
    executedIters envDup (1 / 2000) (floorDI envDup (1 / 2000) + 1) = [0, 1] := by
  rw [envDup_floorDI, executedIters]
  have h0 : inBound envDup (2000⁻¹ : ℚ) 0 = true := by norm_num [inBound, targetOf, envDup]
  have h1 : inBound envDup (2000⁻¹ : ℚ) 1 = true := by norm_num [inBound, targetOf, envDup]
  have h2 : inBound envDup (2000⁻¹ : ℚ) 2 = false := by norm_num [inBound, targetOf, envDup]
  rw [show List.range 3 = [0, 1, 2] from rfl]
  simp [List.takeWhile_cons, h0, h1, h2]

theorem envDup_files :
    (extract_frames_by_interval envDup (1 / 2000) 5).files
      = [mkFilename envDup.basename 0, mkFilename envDup.basename (1 / 2000)] := by
  rw [extract_normal envDup (1 / 2000) 5 rfl rfl (by norm_num) (by norm_num [envDup])
    (by norm_num [envDup]) (fun f => by simp [envDup]) (fun f => rfl)
    (by rw [envDup_floorDI]; norm_num), envDup_executed]
  have hok0 : okAt envDup (2000⁻¹ : ℚ) 0 = true := by simp [okAt, envDup]
  have hok1 : okAt envDup (2000⁻¹ : ℚ) 1 = true := by simp [okAt, envDup]
  simp [List.filter_cons, hok0, hok1]

theorem envDup_same_name :
    mkFilename envDup.basename 0 = mkFilename envDup.basename (1 / 2000) := by
  rw [mkFilename, mkFilename]
  have hf0 : format_time 0 = String.mk (timeChars 0 0 0 0) := by
    rw [format_time_normal _ le_rfl]
    have hfl : ⌊(1000 : ℚ) * 0⌋ = 0 := by norm_num
    rw [hfl]
    rfl
  have hf1 : format_time (1 / 2000) = String.mk (timeChars 0 0 0 0) := by
    rw [format_time_normal _ (by norm_num)]
    have hfl : ⌊(1000 : ℚ) * (1 / 2000)⌋ = 0 := by norm_num
    rw [hfl]
    rfl
  rw [hf0, hf1]

/-- Counterexample to C2 as stated: with the positive interval 1/2000 s
(0.5 ms) on a 2-frame 2000-fps video, two distinct sampling times produce the
same filename, so the output filename sequence has a duplicate. -/
theorem C2_counterexample :
    0 < (1 / 2000 : ℚ) ∧
    ¬ (extract_frames_by_interval envDup (1 / 2000) 5).files.Nodup := by
  refine ⟨by norm_num, ?_⟩
  rw [envDup_files, ← envDup_same_name]
  simp

end MovieToolkit
